import Mathlib

/-!
Shallow embedding of `src/crawler.py` (stefano/simple_crawler).

URL strings are modelled as `List Char` (Python `str`).  Stdlib and
third-party collaborators (`urllib.parse`, `urllib.robotparser`,
`urllib.request`, BeautifulSoup, the filesystem) are external black boxes
per the spec; they appear as explicit function parameters gathered in an
`Env` record, except `urldefrag` and `str.replace`, whose relevant
behaviour is modelled concretely below.  Python exceptions are modelled
as `Except` values: code that does not catch them propagates the error.
-/

abbrev Url : Type := List Char

abbrev Bytes : Type := List Nat

/-- Model of `urllib.parse.urldefrag(url)[0]`: the part of the string
before the first `'#'` (the fragment is everything from the first `'#'` on). -/
def strip_fragment : Url → Url
  | [] => []
  | c :: cs => if c = '#' then [] else c :: strip_fragment cs

/-- Model of `CrawlerURL` (`src/crawler.py` lines 13-25): the actual URL
plus the depth from the root URL. -/
structure CrawlerURL where
  url : Url
  depth : Nat
deriving DecidableEq, Repr

/-- Model of `CrawlerURL.__init__`: `self.url = urldefrag(url)[0]`,
`self.depth = depth`. -/
def CrawlerURL.make (url : Url) (depth : Nat) : CrawlerURL :=
  { url := strip_fragment url, depth := depth }

/-- The equivalence the crawler uses on identities: the seen set
(`SeenURLs`) keys on `crawler_url.url` alone, so two identities are
interchangeable for deduplication exactly when their (fragment-stripped)
url strings agree; depth is carried but never compared. -/
def CrawlerURL.identityEq (a b : CrawlerURL) : Prop := a.url = b.url

/-- Model of Python single-character `str.replace(pat, rep)`: every
occurrence of the character `pat` is replaced by the string `rep`. -/
def pyReplace (pat : Char) (rep : List Char) : List Char → List Char
  | [] => []
  | c :: cs => (if c = pat then rep else [c]) ++ pyReplace pat rep cs

/-- Model of `URLStore._url_to_path` (`src/crawler.py` lines 111-116):
`os.path.join(files_dir, url.replace('_', '__').replace('/', '_'))`. -/
def URLStore.url_to_path (files_dir : Url) (crawler_url : CrawlerURL) : Url :=
  files_dir ++ '/' :: pyReplace '/' ['_'] (pyReplace '_' ['_', '_'] crawler_url.url)

/-- The character substitution performed by the second `replace`:
`'/'` becomes `'_'`, everything else is untouched. -/
def slashToUnderscore (c : Char) : Char := if c = '/' then '_' else c

/-- Model of `SeenURLs` (`src/crawler.py` lines 43-58): the set of url
strings already seen, kept in memory.  A list with `cons` as insert has
exactly the membership behaviour of the Python `set`. -/
abbrev SeenURLs : Type := List Url

/-- Model of `SeenURLs.mark_seen`: `self._urls.add(crawler_url.url)`. -/
def SeenURLs.mark_seen (s : SeenURLs) (crawler_url : CrawlerURL) : SeenURLs :=
  crawler_url.url :: s

/-- Model of `SeenURLs.seen`: `crawler_url.url in self._urls`. -/
def SeenURLs.seen (s : SeenURLs) (crawler_url : CrawlerURL) : Bool :=
  decide (crawler_url.url ∈ s)

/-- Model of the `URLStore` state (`src/crawler.py` lines 61-119): the
files directory path, the rows written so far to `index.csv` (in write
order) and the flat directory of stored files (newest mapping first,
modelling the overwrite semantics of `open(path, 'wb+')`). -/
structure URLStore where
  files_dir : Url
  index : List (Url × Url)
  files : List (Url × Bytes)
deriving DecidableEq, Repr

/-- Model of `URLStore.__init__(domain)`: `files_dir = os.path.join(domain,
'files')`, a fresh index file and an empty files directory. -/
def URLStore.make (domain : Url) : URLStore :=
  { files_dir := domain ++ '/' :: "files".toList, index := [], files := [] }

/-- Model of `URLStore._add_to_index`: `self._index_csv.writerow([url, path])`. -/
def URLStore.add_to_index (st : URLStore) (crawler_url : CrawlerURL) (file_path : Url) :
    URLStore :=
  { st with index := st.index ++ [(crawler_url.url, file_path)] }

/-- Model of `URLStore.save_file` (`src/crawler.py` lines 103-109): compute
the path, append the index row, then open and write the content file.
The `write_ok` flag models whether `open(path, 'wb+')`/`write` succeeds;
on failure the raised `OSError` is the returned `Except.error`, and the
index row has already been appended. -/
def URLStore.save_file (write_ok : Bool) (st : URLStore) (crawler_url : CrawlerURL)
    (page_content : Bytes) : URLStore × Except String Unit :=
  let path := URLStore.url_to_path st.files_dir crawler_url
  let st1 := URLStore.add_to_index st crawler_url path
  if write_ok then
    ({ st1 with files := (path, page_content) :: st1.files }, Except.ok ())
  else
    (st1, Except.error "write failed")

/-- An HTTP response as the crawler consumes it: the `Content-Type` header
and the body bytes returned by `response.read()`. -/
structure FetchResp where
  content_type : Url
  body : Bytes
deriving DecidableEq, Repr

/-- The external collaborators of the crawler, as the spec prescribes:
`urljoin` and `urlparse(...).netloc` from `urllib.parse` (which may raise,
hence `Except`/`Option`), the robots ruleset queried with the fixed
`USER_AGENT`, the HTTP transport (`urlopen` + `read`), the HTML link
extractor (BeautifulSoup, returning the matched attribute values in
document order; `none` models a missing attribute, where `element.get`
returns Python `None`), and the filesystem's verdict on writing a file. -/
structure Env where
  urljoin : Url → Url → Except String Url
  parse_netloc : Url → Option Url
  robots_can_fetch : Url → Bool
  fetch : Url → Except String FetchResp
  extract : Bytes → List (Option Url)
  write_ok : Url → Bool

/-- Model of `CrawlerURL.make_child_url` (`src/crawler.py` lines 24-25):
`CrawlerURL(urljoin(self.url, url), self.depth + 1)`.  A missing attribute
(`none`) reproduces `urljoin(base, None) = base`; otherwise the abstract
`urljoin` may fail (raise `ValueError`), and nothing here catches it. -/
def CrawlerURL.make_child_url (urljoin : Url → Url → Except String Url)
    (cu : CrawlerURL) : Option Url → Except String CrawlerURL
  | none => Except.ok (CrawlerURL.make cu.url (cu.depth + 1))
  | some raw => (urljoin cu.url raw).map (fun u => CrawlerURL.make u (cu.depth + 1))

/-- The full mutable state of a `Crawler` instance: domain of record, seen
set, frontier (a LIFO stack: head = most recently put), storage, the event
log of each logger method, and `push_log`, a ghost record of every url ever
pushed into the frontier, in push order (the spec's instrumented frontier). -/
structure CrawlState where
  domain : Url
  seen : SeenURLs
  frontier : List CrawlerURL
  store : URLStore
  visit_log : List Url
  process_log : List Url
  error_log : List String
  push_log : List Url
deriving DecidableEq, Repr

/-- Model of `Crawler.MAX_DEPTH` (`src/crawler.py` line 140). -/
def Crawler.MAX_DEPTH : Nat := 100

/-- Model of `Crawler._can_queue` (`src/crawler.py` lines 228-253), in the
source's order: depth bound, `urlparse` succeeding (a raised
`ValueError`/`TypeError` means `none`, hence `false`), robots permission,
exact netloc match against the domain of record, and not seen. -/
def Crawler.can_queue (env : Env) (s : CrawlState) (crawler_url : CrawlerURL) : Bool :=
  if Crawler.MAX_DEPTH < crawler_url.depth then false
  else
    match env.parse_netloc crawler_url.url with
    | none => false
    | some netloc =>
      if env.robots_can_fetch crawler_url.url = false then false
      else if s.domain ≠ netloc then false
      else !(SeenURLs.seen s.seen crawler_url)

/-- Model of `Crawler._queue` (`src/crawler.py` lines 255-266): if the URL
cannot be queued, return unchanged; otherwise mark it seen and then put it
on the LIFO frontier (and record the push in the ghost `push_log`). -/
def Crawler.queue (env : Env) (s : CrawlState) (crawler_url : CrawlerURL) : CrawlState :=
  if Crawler.can_queue env s crawler_url then
    { s with
      seen := SeenURLs.mark_seen s.seen crawler_url,
      frontier := crawler_url :: s.frontier,
      push_log := s.push_log ++ [crawler_url.url] }
  else s

/-- Model of `Crawler._extract_links` (`src/crawler.py` lines 209-226):
for each attribute value the parser yields, build the child URL and queue
it.  There is no try/except here: a resolution error propagates. -/
def Crawler.extract_links (env : Env) (s : CrawlState) (crawler_url : CrawlerURL)
    (page_content : Bytes) : Except String CrawlState :=
  (env.extract page_content).foldlM
    (fun st attr =>
      (CrawlerURL.make_child_url env.urljoin crawler_url attr).map (Crawler.queue env st))
    s

/-- Python substring containment (the `in` operator on `str`), used for
`'text/html' in response.info()['Content-Type']`. -/
def has_substring (needle : List Char) : List Char → Bool
  | [] => needle.isEmpty
  | c :: rest => needle.isPrefixOf (c :: rest) || has_substring needle rest

/-- Model of `Crawler._fetch_page` (`src/crawler.py` lines 182-207): log
visiting; fetch (only this step is inside the try/except — a fetch error is
logged and the identity abandoned); log processing; if the content type
contains `text/html`, extract links (errors propagate); save the body
(errors propagate). -/
def Crawler.fetch_page (env : Env) (s : CrawlState) (crawler_url : CrawlerURL) :
    Except String CrawlState :=
  let s0 := { s with visit_log := s.visit_log ++ [crawler_url.url] }
  match env.fetch crawler_url.url with
  | Except.error e => Except.ok { s0 with error_log := s0.error_log ++ [e] }
  | Except.ok resp =>
    let s1 := { s0 with process_log := s0.process_log ++ [crawler_url.url] }
    let links :=
      if has_substring "text/html".toList resp.content_type then
        Crawler.extract_links env s1 crawler_url resp.body
      else Except.ok s1
    match links with
    | Except.error e => Except.error e
    | Except.ok s2 =>
      let saved := URLStore.save_file
        (env.write_ok (URLStore.url_to_path s2.store.files_dir crawler_url))
        s2.store crawler_url resp.body
      match saved.2 with
      | Except.ok _ => Except.ok { s2 with store := saved.1 }
      | Except.error e => Except.error e

/-- One iteration of the `while not empty` loop in `Crawler.crawl`
(`src/crawler.py` lines 170-177): `none` means the loop exits (frontier
empty); otherwise the head of the LIFO frontier is removed and visited. -/
def Crawler.crawl_step (env : Env) (s : CrawlState) : Option (Except String CrawlState) :=
  match s.frontier with
  | [] => none
  | cu :: rest => some (Crawler.fetch_page env { s with frontier := rest } cu)

/-- Model of `Crawler.crawl`: iterate `crawl_step` until the frontier is
empty.  `fuel` only bounds the number of iterations so the recursion is
structural; the loop's exit condition is the frontier-empty test. -/
def Crawler.crawl (env : Env) : Nat → CrawlState → Except String CrawlState
  | 0, s => Except.ok s
  | fuel + 1, s =>
    match s.frontier with
    | [] => Except.ok s
    | cu :: rest =>
      (Crawler.fetch_page env { s with frontier := rest } cu).bind (Crawler.crawl env fuel)

/-- Model of `Crawler.__init__` (`src/crawler.py` lines 142-159): take the
netloc of the root URL (`none` models `urlparse` raising); raising
`Exception('Crawler requires an absolute URL')` when it is empty; otherwise
build the store, the empty seen set and frontier, and `_queue` the root
identity at depth 0. -/
def Crawler.make (env : Env) (root_url : Url) : Option CrawlState :=
  match env.parse_netloc root_url with
  | none => none
  | some domain =>
    if domain.isEmpty then none
    else
      let s0 : CrawlState :=
        { domain := domain, seen := [], frontier := [],
          store := URLStore.make domain,
          visit_log := [], process_log := [], error_log := [], push_log := [] }
      some (Crawler.queue env s0 (CrawlerURL.make root_url 0))

/-- Invariant of the instrumented frontier: no url was ever pushed twice,
and everything pushed is marked seen. -/
def PushInv (s : CrawlState) : Prop :=
  s.push_log.Nodup ∧ ∀ u ∈ s.push_log, u ∈ s.seen

/-- A fragment suffix as it appears in a raw URL: either absent, or a `'#'`
followed by the fragment text. -/
def withFrag : Option Url → Url
  | none => []
  | some f => '#' :: f

/- Concrete collaborators and states used by witnesses and counterexamples. -/

/-- A permissive environment: every URL parses with netloc `e.com`, robots
allows everything, every write succeeds; the network is unreachable. -/
def envAllow : Env :=
  { urljoin := fun _ raw => Except.ok raw,
    parse_netloc := fun _ => some "e.com".toList,
    robots_can_fetch := fun _ => true,
    fetch := fun _ => Except.error "network unreachable",
    extract := fun _ => [],
    write_ok := fun _ => true }

/-- Like `envAllow` but with a robots ruleset that disallows everything. -/
def envDeny : Env := { envAllow with robots_can_fetch := fun _ => false }

/-- A plain-text response. -/
def respPlain : FetchResp := { content_type := "text/plain".toList, body := [0] }

/-- Like `envAllow` but the fetch succeeds with a plain-text page and the
filesystem refuses the content-file write. -/
def envWriteFail : Env :=
  { envAllow with
    fetch := fun _ => Except.ok respPlain,
    write_ok := fun _ => false }

/-- An HTML response. -/
def respHtml : FetchResp := { content_type := "text/html; charset=utf-8".toList, body := [0] }

/-- Like `envAllow` but the fetch succeeds with an HTML page containing one
link whose attribute value cannot be resolved: `urljoin` raises, as
`urllib.parse.urljoin` does on `http://[`. -/
def envBadHref : Env :=
  { envAllow with
    fetch := fun _ => Except.ok respHtml,
    extract := fun _ => [some "http://[".toList],
    urljoin := fun _ _ => Except.error "ValueError: Invalid IPv6 URL" }

/-- A fresh crawl state for domain `e.com` with nothing seen or queued. -/
def stateA : CrawlState :=
  { domain := "e.com".toList, seen := [], frontier := [],
    store := URLStore.make "e.com".toList,
    visit_log := [], process_log := [], error_log := [], push_log := [] }

/-- The root identity for `http://e.com/`. -/
def cuRoot : CrawlerURL := CrawlerURL.make "http://e.com/".toList 0

/-- `stateA` with the root identity on the frontier. -/
def stateOne : CrawlState := { stateA with frontier := [cuRoot] }

/-! Helper lemmas. -/

theorem pyReplace_of_not_mem {pat : Char} {rep : List Char} :
    ∀ {l : List Char}, pat ∉ l → pyReplace pat rep l = l := by
  intro l
  induction l with
  | nil => intro; rfl
  | cons c cs ih =>
    intro h
    have hc : c ≠ pat := fun hceq => h (hceq ▸ List.mem_cons_self c cs)
    have hcs : pat ∉ cs := fun hm => h (List.mem_cons_of_mem c hm)
    simp [pyReplace, hc, ih hcs]

theorem pyReplace_single_eq_map (pat r : Char) :
    ∀ l : List Char, pyReplace pat [r] l = l.map (fun c => if c = pat then r else c) := by
  intro l
  induction l with
  | nil => rfl
  | cons c cs ih =>
    by_cases hc : c = pat <;> simp [pyReplace, hc, ih]

theorem slashToUnderscore_inj {c1 c2 : Char} (h1 : c1 ≠ '_') (h2 : c2 ≠ '_')
    (h : slashToUnderscore c1 = slashToUnderscore c2) : c1 = c2 := by
  unfold slashToUnderscore at h
  by_cases e1 : c1 = '/' <;> by_cases e2 : c2 = '/' <;> simp [e1, e2] at h <;> first
    | exact e1.trans e2.symm
    | exact absurd h.symm h2
    | exact absurd h h1
    | exact h

theorem map_slashToUnderscore_inj :
    ∀ {a b : List Char}, '_' ∉ a → '_' ∉ b →
      a.map slashToUnderscore = b.map slashToUnderscore → a = b := by
  intro a
  induction a with
  | nil =>
    intro b _ _ h
    cases b with
    | nil => rfl
    | cons c cs => simp at h
  | cons c cs ih =>
    intro b ha hb h
    cases b with
    | nil => simp at h
    | cons d ds =>
      simp only [List.map_cons, List.cons.injEq] at h
      have hc : c ≠ '_' := fun e => ha (e ▸ List.mem_cons_self c cs)
      have hd : d ≠ '_' := fun e => hb (e ▸ List.mem_cons_self d ds)
      have hcs : '_' ∉ cs := fun hm => ha (List.mem_cons_of_mem c hm)
      have hds : '_' ∉ ds := fun hm => hb (List.mem_cons_of_mem d hm)
      have := slashToUnderscore_inj hc hd h.1
      rw [this, ih hcs hds h.2]

theorem can_queue_eq_true_iff (env : Env) (s : CrawlState) (cu : CrawlerURL) :
    Crawler.can_queue env s cu = true ↔
      cu.depth ≤ Crawler.MAX_DEPTH
      ∧ (∃ netloc, env.parse_netloc cu.url = some netloc
          ∧ env.robots_can_fetch cu.url = true
          ∧ s.domain = netloc)
      ∧ cu.url ∉ s.seen := by
  unfold Crawler.can_queue
  cases hp : env.parse_netloc cu.url with
  | none => simp [hp]
  | some netloc =>
    by_cases hd : Crawler.MAX_DEPTH < cu.depth
    · simp [hp, hd]
    · by_cases hr : env.robots_can_fetch cu.url = false
      · simp [hp, hd, hr, Bool.eq_false_iff]
      · by_cases hdom : s.domain = netloc
        · simp [hp, hd, hr, hdom, SeenURLs.seen, Bool.not_eq_false] at hr ⊢
          exact fun _ => Nat.not_lt.mp hd
        · simp [hp, hd, hr, hdom]

theorem can_queue_eq_false_of_seen (env : Env) (s : CrawlState) (cu : CrawlerURL)
    (h : cu.url ∈ s.seen) : Crawler.can_queue env s cu = false := by
  rw [Bool.eq_false_iff]
  intro hq
  exact ((can_queue_eq_true_iff env s cu).mp hq).2.2 h

theorem queue_of_seen (env : Env) (s : CrawlState) (cu : CrawlerURL)
    (h : cu.url ∈ s.seen) : Crawler.queue env s cu = s := by
  unfold Crawler.queue
  simp [can_queue_eq_false_of_seen env s cu h]

theorem pushInv_queue (env : Env) (s : CrawlState) (cu : CrawlerURL)
    (h : PushInv s) : PushInv (Crawler.queue env s cu) := by
  unfold Crawler.queue
  split_ifs with hq
  · have hnotseen : cu.url ∉ s.seen := ((can_queue_eq_true_iff env s cu).mp hq).2.2
    have hnotlog : cu.url ∉ s.push_log := fun hm => hnotseen (h.2 _ hm)
    constructor
    · simpa [List.nodup_append, h.1] using hnotlog
    · intro u hu
      simp only [List.mem_append, List.mem_singleton] at hu
      rcases hu with hu | hu
      · exact List.mem_cons_of_mem _ (h.2 _ hu)
      · rw [hu]
        exact List.mem_cons_self _ _
  · exact h

theorem pushInv_foldl_queue (env : Env) :
    ∀ (cands : List CrawlerURL) (s : CrawlState), PushInv s →
      PushInv (cands.foldl (Crawler.queue env) s) := by
  intro cands
  induction cands with
  | nil => intro s h; exact h
  | cons cu rest ih =>
    intro s h
    exact ih (Crawler.queue env s cu) (pushInv_queue env s cu h)

/-! Theorems for the claims. -/

/-- C1 (counterexample): the escaping is NOT injective over all URL
strings.  The distinct URLs `http://e.com/a_/b` and `http://e.com/a/_b`
are both mapped to the flat filename `e.com/files/http:__e.com_a___b`:
doubling the escape character and then collapsing the separator into the
same character makes a run of three underscores ambiguous. -/
theorem url_to_path_collision :
    ("http://e.com/a_/b".toList ≠ "http://e.com/a/_b".toList)
    ∧ URLStore.url_to_path ("e.com/files".toList)
        (CrawlerURL.make ("http://e.com/a_/b".toList) 1)
      = URLStore.url_to_path ("e.com/files".toList)
        (CrawlerURL.make ("http://e.com/a/_b".toList) 1) := by
  constructor
  · decide
  · rfl

/-- C1 (amended): the escaping is injective on URL strings that contain no
escape character `'_'`: for such URLs, distinct url strings always give
distinct flat filenames. -/
theorem url_to_path_inj_of_no_underscore (files_dir : Url) (a b : CrawlerURL)
    (ha : '_' ∉ a.url) (hb : '_' ∉ b.url) (hne : a.url ≠ b.url) :
    URLStore.url_to_path files_dir a ≠ URLStore.url_to_path files_dir b := by
  intro h
  unfold URLStore.url_to_path at h
  have h2 := List.append_cancel_left h
  have h3 : pyReplace '/' ['_'] (pyReplace '_' ['_', '_'] a.url)
      = pyReplace '/' ['_'] (pyReplace '_' ['_', '_'] b.url) :=
    (List.cons.inj h2).2
  rw [pyReplace_of_not_mem ha, pyReplace_of_not_mem hb] at h3
  rw [pyReplace_single_eq_map, pyReplace_single_eq_map] at h3
  exact hne (map_slashToUnderscore_inj ha hb h3)

/-- Witness for `url_to_path_inj_of_no_underscore` at the underscore-free
distinct URLs `a/b` and `ab`. -/
theorem url_to_path_inj_of_no_underscore_witness :
    ('_' ∉ "a/b".toList) ∧ ('_' ∉ "ab".toList) ∧ ("a/b".toList ≠ "ab".toList)
    ∧ URLStore.url_to_path ("e.com/files".toList) ⟨"a/b".toList, 1⟩
      ≠ URLStore.url_to_path ("e.com/files".toList) ⟨"ab".toList, 1⟩ :=
  ⟨by decide, by decide, by decide,
    url_to_path_inj_of_no_underscore ("e.com/files".toList) ⟨"a/b".toList, 1⟩
      ⟨"ab".toList, 1⟩ (by decide) (by decide) (by decide)⟩

/-- C5: `_can_queue` admits a candidate exactly when all five checks hold:
depth at most `MAX_DEPTH`, the URL parses (structural validity), robots
permits it, the netloc equals the domain of record exactly, and the URL is
not already seen.  The function returns a `Bool` and takes the state
immutably, so it has no side effects: in particular it never marks the URL
seen. -/
theorem scope_policy_iff (env : Env) (s : CrawlState) (cu : CrawlerURL) :
    Crawler.can_queue env s cu = true ↔
      cu.depth ≤ Crawler.MAX_DEPTH
      ∧ (∃ netloc, env.parse_netloc cu.url = some netloc
          ∧ env.robots_can_fetch cu.url = true
          ∧ s.domain = netloc)
      ∧ cu.url ∉ s.seen :=
  can_queue_eq_true_iff env s cu

/-- Witness for `scope_policy_iff`: the root identity of `http://e.com/`
is admitted in the fresh state under the permissive environment. -/
theorem scope_policy_iff_witness :
    Crawler.can_queue envAllow stateA cuRoot = true :=
  (scope_policy_iff envAllow stateA cuRoot).mpr
    ⟨by decide, ⟨"e.com".toList, rfl, rfl, rfl⟩, by decide⟩

/-- C4: the enqueue protocol.  If admitted, the identity's url is marked
seen and the identity is pushed on the frontier, so `seen` answers true
immediately after; an enqueue of an identity whose url is already seen (in
particular a second enqueue of an equal-URL identity, at any depth) leaves
the whole state — frontier and seen set included — unchanged; and over any
sequence of enqueues from a state whose push history is duplicate-free and
marked seen, no url is ever pushed into the frontier twice. -/
theorem queue_enqueue_protocol (env : Env) (s : CrawlState) (cu cu' : CrawlerURL)
    (cands : List CrawlerURL) :
    (Crawler.can_queue env s cu = true →
        SeenURLs.seen (Crawler.queue env s cu).seen cu = true
        ∧ (Crawler.queue env s cu).frontier = cu :: s.frontier
        ∧ (Crawler.queue env s cu).push_log = s.push_log ++ [cu.url])
    ∧ (cu'.url ∈ s.seen → Crawler.queue env s cu' = s)
    ∧ (Crawler.can_queue env s cu = true → cu'.url = cu.url →
        Crawler.queue env (Crawler.queue env s cu) cu' = Crawler.queue env s cu)
    ∧ (PushInv s → (cands.foldl (Crawler.queue env) s).push_log.Nodup) := by
  refine ⟨?_, ?_, ?_, ?_⟩
  · intro hq
    simp [Crawler.queue, hq, SeenURLs.seen, SeenURLs.mark_seen]
  · intro hseen
    exact queue_of_seen env s cu' hseen
  · intro hq hurl
    have hmem : cu'.url ∈ (Crawler.queue env s cu).seen := by
      simp [Crawler.queue, hq, SeenURLs.mark_seen, hurl]
    exact queue_of_seen env (Crawler.queue env s cu) cu' hmem
  · intro hinv
    exact (pushInv_foldl_queue env cands s hinv).1

/-- Witness for `queue_enqueue_protocol`: enqueueing the admitted root
identity in the fresh state marks it seen, and re-enqueueing it is a no-op. -/
theorem queue_enqueue_protocol_witness :
    (SeenURLs.seen (Crawler.queue envAllow stateA cuRoot).seen cuRoot = true
      ∧ (Crawler.queue envAllow stateA cuRoot).frontier = cuRoot :: stateA.frontier
      ∧ (Crawler.queue envAllow stateA cuRoot).push_log = stateA.push_log ++ [cuRoot.url])
    ∧ Crawler.queue envAllow (Crawler.queue envAllow stateA cuRoot) cuRoot
        = Crawler.queue envAllow stateA cuRoot
    ∧ ([cuRoot, cuRoot, cuRoot].foldl (Crawler.queue envAllow) stateA).push_log.Nodup :=
  ⟨(queue_enqueue_protocol envAllow stateA cuRoot cuRoot []).1 (by decide),
   (queue_enqueue_protocol envAllow stateA cuRoot cuRoot []).2.2.1 (by decide) rfl,
   (queue_enqueue_protocol envAllow stateA cuRoot cuRoot [cuRoot, cuRoot, cuRoot]).2.2.2
     ⟨List.nodup_nil, fun u hu => absurd hu (List.not_mem_nil u)⟩⟩

theorem fetch_page_of_fetch_error (env : Env) (s : CrawlState) (cu : CrawlerURL)
    (e : String) (h : env.fetch cu.url = Except.error e) :
    Crawler.fetch_page env s cu
      = Except.ok { s with visit_log := s.visit_log ++ [cu.url],
                           error_log := s.error_log ++ [e] } := by
  unfold Crawler.fetch_page
  rw [h]

/-- C7: a fetch failure is absorbed inside the visit: the only change to
the state is the visiting event and the error event — no retry, no
re-queue (frontier and seen untouched), no index row and no stored file
(store untouched) — and the crawl loop goes on to process exactly the
identities still queued behind it. -/
theorem fetch_failure_abandons_page (env : Env) (s : CrawlState) (cu : CrawlerURL)
    (e : String) (rest : List CrawlerURL) (fuel : Nat)
    (h : env.fetch cu.url = Except.error e) :
    Crawler.fetch_page env s cu
      = Except.ok { s with visit_log := s.visit_log ++ [cu.url],
                           error_log := s.error_log ++ [e] }
    ∧ (s.frontier = cu :: rest →
        Crawler.crawl env (fuel + 1) s
          = Crawler.crawl env fuel
              { s with frontier := rest,
                       visit_log := s.visit_log ++ [cu.url],
                       error_log := s.error_log ++ [e] }) := by
  constructor
  · exact fetch_page_of_fetch_error env s cu e h
  · intro hfr
    have hstep : Crawler.crawl env (fuel + 1) s
        = (Crawler.fetch_page env { s with frontier := rest } cu).bind
            (Crawler.crawl env fuel) := by
      unfold Crawler.crawl
      rw [hfr]
    rw [hstep, fetch_page_of_fetch_error env { s with frontier := rest } cu e h]
    rfl

/-- Witness for `fetch_failure_abandons_page`: under `envAllow` the network
is unreachable, the root's visit logs the error and the loop continues with
the rest of the frontier. -/
theorem fetch_failure_abandons_page_witness :
    Crawler.fetch_page envAllow stateOne cuRoot
      = Except.ok { stateOne with
          visit_log := stateOne.visit_log ++ [cuRoot.url],
          error_log := stateOne.error_log ++ ["network unreachable"] }
    ∧ Crawler.crawl envAllow 3 stateOne
        = Crawler.crawl envAllow 2
            { stateOne with
              frontier := [],
              visit_log := stateOne.visit_log ++ [cuRoot.url],
              error_log := stateOne.error_log ++ ["network unreachable"] } :=
  ⟨(fetch_failure_abandons_page envAllow stateOne cuRoot "network unreachable" [] 2 rfl).1,
   (fetch_failure_abandons_page envAllow stateOne cuRoot "network unreachable" [] 2 rfl).2 rfl⟩

/-- C2 (counterexample): a per-page error CAN escape `visit`.  With a
successful plain-text fetch of the root but a filesystem that refuses the
content-file write, `_fetch_page` raises: persisting the body happens
outside the try/except, so the storage error propagates out of the visit
instead of moving the crawl on to the next queued identity. -/
theorem visit_storage_error_escapes :
    Crawler.fetch_page envWriteFail stateA cuRoot = Except.error "write failed" := by
  rfl

/-- C2 (amended): only the fetch itself is guarded.  A fetch failure never
escapes `visit` — the visit returns normally having logged the error, and
the loop proceeds — while an error raised when persisting the body (and
likewise any error while processing the response or extracting links) is
not caught and escapes `visit`. -/
theorem visit_error_policy (env : Env) (s : CrawlState) (cu : CrawlerURL)
    (e : String) (resp : FetchResp) :
    (env.fetch cu.url = Except.error e →
        Crawler.fetch_page env s cu
          = Except.ok { s with visit_log := s.visit_log ++ [cu.url],
                               error_log := s.error_log ++ [e] })
    ∧ (env.fetch cu.url = Except.ok resp →
        has_substring "text/html".toList resp.content_type = false →
        env.write_ok (URLStore.url_to_path s.store.files_dir cu) = false →
        Crawler.fetch_page env s cu = Except.error "write failed") := by
  constructor
  · intro h
    exact fetch_page_of_fetch_error env s cu e h
  · intro hfetch hhtml hw
    unfold Crawler.fetch_page
    rw [hfetch]
    simp only [hhtml, Bool.false_eq_true, if_false]
    simp [URLStore.save_file, hw]

/-- Witness for `visit_error_policy`: a failing fetch is absorbed, a
failing write escapes. -/
theorem visit_error_policy_witness :
    Crawler.fetch_page envAllow stateA cuRoot
      = Except.ok { stateA with visit_log := stateA.visit_log ++ [cuRoot.url],
                                error_log := stateA.error_log ++ ["network unreachable"] }
    ∧ Crawler.fetch_page envWriteFail stateA cuRoot = Except.error "write failed" :=
  ⟨(visit_error_policy envAllow stateA cuRoot "network unreachable" respPlain).1 rfl,
   (visit_error_policy envWriteFail stateA cuRoot "x" respPlain).2 rfl (by decide) rfl⟩

/-- C3 (code bug): a malformed attribute value is crawl-fatal, not dropped.
Visiting an HTML page whose one anchor href is `http://[` makes
`urljoin` raise (as `urllib.parse.urljoin` does on that input); nothing in
`_extract_links` or `make_child_url` catches it — the guard for invalid
URLs sits later, in `_can_queue` — so the error aborts the whole visit
instead of dropping the single candidate link. -/
theorem malformed_href_aborts_crawl :
    Crawler.fetch_page envBadHref stateA cuRoot
      = Except.error "ValueError: Invalid IPv6 URL" := by
  rfl

/-- C6: the frontier is LIFO and drives the loop.  One loop iteration is
possible exactly when the frontier is non-empty; when it is non-empty the
identity removed and visited is the head — which `queue` just showed is the
most recently enqueued one still present — and on an empty frontier the
crawl returns at once. -/
theorem frontier_lifo_and_exit (env : Env) (s : CrawlState) (cu : CrawlerURL)
    (rest : List CrawlerURL) (fuel : Nat) :
    (Crawler.crawl_step env s = none ↔ s.frontier = [])
    ∧ (s.frontier = cu :: rest →
        Crawler.crawl_step env s
          = some (Crawler.fetch_page env { s with frontier := rest } cu))
    ∧ (Crawler.can_queue env s cu = true →
        ((Crawler.queue env s cu).frontier).head? = some cu)
    ∧ (s.frontier = [] → Crawler.crawl env fuel s = Except.ok s) := by
  refine ⟨?_, ?_, ?_, ?_⟩
  · unfold Crawler.crawl_step
    cases hfr : s.frontier <;> simp
  · intro hfr
    unfold Crawler.crawl_step
    rw [hfr]
  · intro hq
    simp [Crawler.queue, hq]
  · intro hfr
    cases fuel with
    | zero => rfl
    | succ n =>
      unfold Crawler.crawl
      rw [hfr]

/-- Witness for `frontier_lifo_and_exit`: with the root queued, the next
step visits exactly the root; with an empty frontier the crawl stops. -/
theorem frontier_lifo_and_exit_witness :
    Crawler.crawl_step envAllow stateOne
      = some (Crawler.fetch_page envAllow { stateOne with frontier := [] } cuRoot)
    ∧ Crawler.crawl envAllow 5 stateA = Except.ok stateA :=
  ⟨(frontier_lifo_and_exit envAllow stateOne cuRoot [] 5).2.1 rfl,
   (frontier_lifo_and_exit envAllow stateA cuRoot [] 5).2.2.2 rfl⟩

theorem strip_fragment_append (base : Url) (o : Option Url) (h : '#' ∉ base) :
    strip_fragment (base ++ withFrag o) = base := by
  induction base with
  | nil =>
    cases o with
    | none => rfl
    | some f => simp [strip_fragment, withFrag]
  | cons c cs ih =>
    have hc : c ≠ '#' := fun e => h (e ▸ List.mem_cons_self c cs)
    have hcs : '#' ∉ cs := fun hm => h (List.mem_cons_of_mem c hm)
    simp [strip_fragment, hc, ih hcs]

/-- C8: normalization is fragment-insensitive and identity equivalence is
url-string equality.  Two raw URLs made of the same fragment-free base and
arbitrary (possibly absent) fragments normalize, at any depths, to
identities with the same url string — hence to equivalent identities — and,
in general, two constructed identities are equivalent exactly when the
fragment-stripped raw strings coincide, the depths playing no part. -/
theorem normalize_fragment_insensitive (base : Url) (o1 o2 : Option Url)
    (d1 d2 : Nat) (raw1 raw2 : Url) (h : '#' ∉ base) :
    (CrawlerURL.make (base ++ withFrag o1) d1).url
      = (CrawlerURL.make (base ++ withFrag o2) d2).url
    ∧ CrawlerURL.identityEq (CrawlerURL.make (base ++ withFrag o1) d1)
        (CrawlerURL.make (base ++ withFrag o2) d2)
    ∧ (CrawlerURL.identityEq (CrawlerURL.make raw1 d1) (CrawlerURL.make raw2 d2)
        ↔ strip_fragment raw1 = strip_fragment raw2) := by
  have h1 : (CrawlerURL.make (base ++ withFrag o1) d1).url = base :=
    strip_fragment_append base o1 h
  have h2 : (CrawlerURL.make (base ++ withFrag o2) d2).url = base :=
    strip_fragment_append base o2 h
  exact ⟨h1.trans h2.symm, h1.trans h2.symm, Iff.rfl⟩

/-- Witness for `normalize_fragment_insensitive`: `http://e.com/p#sec` and
`http://e.com/p`, resolved at depths 0 and 5, give the same identity url. -/
theorem normalize_fragment_insensitive_witness :
    (CrawlerURL.make ("http://e.com/p".toList ++ withFrag (some "sec".toList)) 0).url
      = (CrawlerURL.make ("http://e.com/p".toList ++ withFrag none) 5).url :=
  (normalize_fragment_insensitive "http://e.com/p".toList (some "sec".toList) none
      0 5 [] [] (by decide)).1

/-- C9 (counterexample): construction does not always seed the frontier.
Under a robots ruleset that denies everything, the root URL `http://e.com/`
has a non-empty netloc and construction succeeds, yet `_queue` rejects the
root identity and the frontier starts empty rather than holding the root. -/
theorem construct_robots_deny_frontier_empty :
    (Crawler.make envDeny ("http://e.com/".toList)).map CrawlState.frontier
      = some []
    ∧ ([] : List CrawlerURL)
      ≠ [CrawlerURL.make ("http://e.com/".toList) 0] := by
  constructor
  · rfl
  · decide

/-- C9 (amended): for every root URL with a non-empty network location
whose (defragmented) identity the scope policy admits — in particular,
robots permits fetching it — construction seeds the frontier with exactly
the root identity at depth 0; when the policy rejects the root, the
frontier starts empty instead. -/
theorem construct_seeds_root (env : Env) (root_url domain : Url)
    (hparse : env.parse_netloc root_url = some domain)
    (hdom : domain.isEmpty = false)
    (hparse2 : env.parse_netloc (strip_fragment root_url) = some domain)
    (hrobots : env.robots_can_fetch (strip_fragment root_url) = true) :
    (Crawler.make env root_url).map CrawlState.frontier
      = some [CrawlerURL.make root_url 0] := by
  unfold Crawler.make
  rw [hparse]
  simp only [hdom, Bool.false_eq_true, if_false, Option.map_some]
  have hq : Crawler.can_queue env
      { domain := domain, seen := [], frontier := [],
        store := URLStore.make domain,
        visit_log := [], process_log := [], error_log := [], push_log := [] }
      (CrawlerURL.make root_url 0) = true := by
    apply (can_queue_eq_true_iff _ _ _).mpr
    refine ⟨by simp [CrawlerURL.make, Crawler.MAX_DEPTH], ⟨domain, ?_, ?_, rfl⟩, ?_⟩
    · exact hparse2
    · exact hrobots
    · exact List.not_mem_nil _
  simp [Crawler.queue, hq]

/-- Witness for `construct_seeds_root`: under the permissive environment,
constructing the crawler for `http://e.com/` queues exactly the root. -/
theorem construct_seeds_root_witness :
    (Crawler.make envAllow ("http://e.com/".toList)).map CrawlState.frontier
      = some [CrawlerURL.make ("http://e.com/".toList) 0] :=
  construct_seeds_root envAllow ("http://e.com/".toList) ("e.com".toList)
    rfl (by decide) rfl rfl

/-- C10: in `save_file` the index row is appended before the content file
is opened: when the write fails, the returned store already carries the
(url, path) row while the files directory is unchanged and the error is
raised; when the write succeeds, the same row is appended and the bytes are
stored under the escaped path. -/
theorem save_file_row_before_bytes (st : URLStore) (cu : CrawlerURL) (content : Bytes) :
    ((URLStore.save_file false st cu content).1.index
        = st.index ++ [(cu.url, URLStore.url_to_path st.files_dir cu)]
      ∧ (URLStore.save_file false st cu content).1.files = st.files
      ∧ (URLStore.save_file false st cu content).2 = Except.error "write failed")
    ∧ ((URLStore.save_file true st cu content).1.index
        = st.index ++ [(cu.url, URLStore.url_to_path st.files_dir cu)]
      ∧ (URLStore.save_file true st cu content).1.files
        = (URLStore.url_to_path st.files_dir cu, content) :: st.files) := by
  refine ⟨⟨?_, ?_, ?_⟩, ⟨?_, ?_⟩⟩ <;>
    simp [URLStore.save_file, URLStore.add_to_index]
